import Mathlib

/-!
Shallow embedding of the load-test engine of `oha-streaming-service`
(`src/load_tester.rs` and `src/main.rs`), together with theorems settling
the specification claims about it.

Conventions: Rust `u64` counters are modelled as `Nat` (no arithmetic here
comes near the `2^64` wrap), `f64` quantities appearing in formula-level
claims are modelled as `ℚ`, `HashMap<String, u64>` as an association list
`List (String × Nat)` with the `entry().or_insert(0) += 1` update, and
fallible/panicking code as explicit sum types.
-/

namespace OhaStreaming

/-- Status enumeration, from `LoadTestStatus` in `load_tester.rs`. -/
inductive LoadTestStatus where
  | Running
  | Completed
  | Failed
  | Stopped
deriving DecidableEq, Repr

/-- Run configuration, from `LoadTestConfig` in `load_tester.rs`. -/
structure LoadTestConfig where
  duration_seconds : Nat
  connections : Nat
  rate_per_second : Option Nat
deriving DecidableEq, Repr

/-- The stop flag and status cell of a `LoadTest` (`should_stop`, `status`). -/
structure ControlState where
  should_stop : Bool
  status : LoadTestStatus
deriving DecidableEq, Repr

/-- `LoadTest::new` initialises `should_stop` to `false` and `status` to `Running`. -/
def initControl : ControlState :=
  { should_stop := false, status := LoadTestStatus.Running }

/-- `LoadTest::stop` (load_tester.rs lines 110-113): stores `true` into the stop
flag and assigns `Stopped` to the status cell. -/
def stopTest (st : ControlState) : ControlState :=
  { st with should_stop := true, status := LoadTestStatus.Stopped }

/-- The status write `LoadTest::run` performs after all workers have joined
(load_tester.rs line 169): an unconditional assignment of `Completed`,
regardless of the current status. -/
def finishStatus (st : ControlState) : ControlState :=
  { st with status := LoadTestStatus.Completed }

/-- Result of the client-construction prologue of `LoadTest::run`
(load_tester.rs lines 118-123): `Client::builder()...build().unwrap()`.
On a builder error the `unwrap` panics the task; no status write happens. -/
inductive SetupResult where
  | panicked (msg : String)
  | clientReady
deriving DecidableEq, Repr

/-- The prologue of `run()` as a function of the outcome of `build()`: the
`unwrap` turns a builder error into a panic and leaves the control state
untouched; on success the run proceeds with the status cell unchanged. -/
def runSetup (st : ControlState) (build : Except String Unit) : SetupResult × ControlState :=
  match build with
  | Except.error e => (SetupResult.panicked e, st)
  | Except.ok _ => (SetupResult.clientReady, st)

/-- The retention predicate of `cleanup_completed_tests` (main.rs lines 348-351):
`!matches!(test.status(), Completed | Failed)`. -/
def retainTest : LoadTestStatus → Bool
  | LoadTestStatus.Completed => false
  | LoadTestStatus.Failed => false
  | _ => true

/-- `cleanup_completed_tests`: `tests.retain(|_, test| !matches!(..))` over the
registry, modelled on its key/status view. -/
def cleanup_completed_tests (tests : List (String × LoadTestStatus)) :
    List (String × LoadTestStatus) :=
  tests.filter (fun e => retainTest e.2)

/-- Registry key used by `start_test` / `get_test_status` / `stop_test`
(main.rs lines 207-208, 240, 260-261): the concatenated string
`testId ++ "-" ++ runtime` (from the `format!` calls). -/
def registryKey (testId runtime : String) : String :=
  testId ++ "-" ++ runtime

/-- The two keys `start_test` inserts for one test id (main.rs lines 207-208). -/
def startTestKeys (testId : String) : List String :=
  [registryKey testId "node", registryKey testId "bun"]

/-- The two keys `stop_test` looks up for one test id (main.rs lines 260-261). -/
def stopTestKeys (testId : String) : List String :=
  [registryKey testId "node", registryKey testId "bun"]

/-- The transport-error view a worker consults in its `Err(e)` arm
(load_tester.rs lines 339-360): the `reqwest::Error` predicate flags, the
optional `source()` of a connect error, and the `Display` rendering used by
the `format!` arms. -/
structure TransportErr where
  isTimeout : Bool
  isConnect : Bool
  connectSource : Option String
  isRequest : Bool
  isBody : Bool
  isDecode : Bool
  isRedirect : Bool
  isBuilder : Bool
  display : String
deriving DecidableEq, Repr

/-- Outcome of one `client.get(..).send().await` as a worker sees it: a
response with its status code, the code's `canonical_reason()` and the
measured latency in ms, or a transport error. -/
inductive ReqOutcome where
  | response (code : Nat) (reason : Option String) (latencyMs : Nat)
  | transport (e : TransportErr)
deriving DecidableEq, Repr

/-- `StatusCode::is_success()`: the 2xx range. -/
def isSuccess (code : Nat) : Bool :=
  decide (200 ≤ code ∧ code ≤ 299)

/-- The non-2xx classification `match status.as_u16()` of the worker
(load_tester.rs lines 318-332): fixed labels for the nine common codes and
the `format!("HTTP_..", code, canonical_reason().unwrap_or("Unknown"))`
fallback otherwise. -/
def classifyStatus (code : Nat) (reason : Option String) : String :=
  if code = 400 then "HTTP_400_Bad_Request"
  else if code = 401 then "HTTP_401_Unauthorized"
  else if code = 403 then "HTTP_403_Forbidden"
  else if code = 404 then "HTTP_404_Not_Found"
  else if code = 429 then "HTTP_429_Too_Many_Requests"
  else if code = 500 then "HTTP_500_Internal_Server_Error"
  else if code = 502 then "HTTP_502_Bad_Gateway"
  else if code = 503 then "HTTP_503_Service_Unavailable"
  else if code = 504 then "HTTP_504_Gateway_Timeout"
  else "HTTP_" ++ toString code ++ "_" ++ reason.getD "Unknown"

/-- The transport-error classification of the worker (load_tester.rs lines
339-360), testing the `reqwest::Error` predicates in source order. -/
def classifyTransport (e : TransportErr) : String :=
  if e.isTimeout then "Timeout"
  else if e.isConnect then
    match e.connectSource with
    | some s => "Connection: " ++ s
    | none => "Connection: Failed to establish connection"
  else if e.isRequest then "Request: " ++ e.display
  else if e.isBody then "Body: Failed to read response body"
  else if e.isDecode then "Decode: Failed to decode response"
  else if e.isRedirect then "Redirect: Too many redirects"
  else if e.isBuilder then "Builder: Invalid request"
  else "Unknown: " ++ e.display

/-- `LoadTestWorker::record_error` (load_tester.rs lines 373-377):
`*error_types.entry(label).or_insert(0) += 1` on the tally, modelled on an
association list. -/
def record_error : List (String × Nat) → String → List (String × Nat)
  | [], label => [(label, 1)]
  | (k, v) :: rest, label =>
    if k = label then (k, v + 1) :: rest else (k, v) :: record_error rest label

/-- Total number of occurrences recorded in the tally. -/
def totalTally (t : List (String × Nat)) : Nat :=
  (t.map Prod.snd).sum

/-- The latency histogram: the bounds and precision it was created with and
the multiset of values it holds (order of the list is immaterial). -/
structure Hist where
  lo : Nat
  hi : Nat
  sigfig : Nat
  values : List Nat
deriving DecidableEq, Repr

/-- `Histogram::new_with_bounds(1, 60_000, 3)` from `LoadTest::new`
(load_tester.rs lines 88-90). -/
def newHistogram : Hist :=
  { lo := 1, hi := 60000, sigfig := 3, values := [] }

/-- `let _ = histogram.record(latency_ms)` (load_tester.rs line 313): recording
a value above the trackable range returns an error, which the worker ignores;
such a value is dropped. -/
def hrecord (h : Hist) (v : Nat) : Hist :=
  if v ≤ h.hi then { h with values := h.values ++ [v] } else h

/-- The shared statistics of one run: the three atomic counters, the latency
histogram, and the error tally (`LoadTest` fields, load_tester.rs lines 57-61). -/
structure Stats where
  requests_sent : Nat
  responses_received : Nat
  errors : Nat
  latency_histogram : Hist
  error_types : List (String × Nat)
deriving DecidableEq, Repr

/-- Fresh statistics, as initialised by `LoadTest::new`. -/
def initStats : Stats :=
  { requests_sent := 0, responses_received := 0, errors := 0,
    latency_histogram := newHistogram, error_types := [] }

/-- One loop iteration of `LoadTestWorker::run` past the pacing sleep
(load_tester.rs lines 300-366): increment `requests_sent`, then on a 2xx
response increment `responses_received` and record the latency; on a non-2xx
response increment `errors` and tally the status label; on a transport error
increment `errors` and tally the transport label. -/
def workerStep (st : Stats) (o : ReqOutcome) : Stats :=
  let st1 := { st with requests_sent := st.requests_sent + 1 }
  match o with
  | ReqOutcome.response code reason lat =>
    if isSuccess code then
      { st1 with
        responses_received := st1.responses_received + 1,
        latency_histogram := hrecord st1.latency_histogram lat }
    else
      { st1 with
        errors := st1.errors + 1,
        error_types := record_error st1.error_types (classifyStatus code reason) }
  | ReqOutcome.transport e =>
    { st1 with
      errors := st1.errors + 1,
      error_types := record_error st1.error_types (classifyTransport e) }

/-- A worker's whole loop on the sequence of request outcomes it observes. -/
def workerRun (l : List ReqOutcome) : Stats :=
  l.foldl workerStep initStats

/-- Recognises the outcome "a response with status code 500". -/
def is500 : ReqOutcome → Bool
  | ReqOutcome.response code _ _ => code == 500
  | ReqOutcome.transport _ => false

/-- The latency a given outcome contributes to the histogram: `some` only for
2xx responses. -/
def successLatency : ReqOutcome → Option Nat
  | ReqOutcome.response code _ lat => if isSuccess code then some lat else none
  | ReqOutcome.transport _ => none

/-- `requests_per_second` in `LoadTest::run` (load_tester.rs lines 132-133):
the configured rate, or `connections * 10` when unset. -/
def effectiveRate (c : LoadTestConfig) : Nat :=
  c.rate_per_second.getD (c.connections * 10)

/-- `request_interval` in `LoadTest::run` (load_tester.rs line 134):
`Duration::from_millis(1000 / requests_per_second.max(1))`. -/
def requestIntervalMs (c : LoadTestConfig) : Nat :=
  1000 / max (effectiveRate c) 1

/-- The per-worker configuration fixed at spawn time (`LoadTestWorker` fields
relevant here; load_tester.rs lines 139-151). -/
structure WorkerCfg where
  worker_id : Nat
  request_interval : Nat
deriving DecidableEq, Repr

/-- The worker-spawning loop of `LoadTest::run` (load_tester.rs lines 139-158):
one worker per connection, each constructed with the one `request_interval`
computed before the loop. -/
def mkWorkers (c : LoadTestConfig) : List WorkerCfg :=
  (List.range c.connections).map
    (fun i => { worker_id := i, request_interval := requestIntervalMs c })

/-- One observation the sampler makes at a tick (load_tester.rs lines 226-244):
the stop flag it polls, the elapsed seconds, the three counters and the
histogram snapshot it reads. `f64` quantities are modelled as `ℚ`. -/
structure TickObs where
  shouldStopFlag : Bool
  elapsed : ℚ
  requests : Nat
  responses : Nat
  errorCount : Nat
  avgLatency : ℚ
  p95Latency : ℚ
deriving DecidableEq

/-- The Progress message published at a tick (load_tester.rs lines 246-258). -/
structure ProgressMsg where
  requests_sent : Nat
  responses_received : Nat
  errors : Nat
  current_rps : ℚ
  avg_latency_ms : ℚ
  p95_latency_ms : ℚ
  elapsed_seconds : ℚ
  progress_percent : ℚ
deriving DecidableEq

/-- `(elapsed / duration as f64 * 100.0).min(100.0)` (load_tester.rs line 233). -/
def progressPercent (elapsed : ℚ) (duration : Nat) : ℚ :=
  min (elapsed / (duration : ℚ) * 100) 100

/-- `requests as f64 / elapsed.max(0.1)` (load_tester.rs line 239). -/
def currentRps (requests : Nat) (elapsed : ℚ) : ℚ :=
  (requests : ℚ) / max elapsed (1 / 10)

/-- The Progress message one tick builds from its observation
(load_tester.rs lines 232-258). -/
def tickMessage (duration : Nat) (o : TickObs) : ProgressMsg :=
  { requests_sent := o.requests
    responses_received := o.responses
    errors := o.errorCount
    current_rps := currentRps o.requests o.elapsed
    avg_latency_ms := o.avgLatency
    p95_latency_ms := o.p95Latency
    elapsed_seconds := o.elapsed
    progress_percent := progressPercent o.elapsed duration }

/-- The sampler loop of `start_progress_reporting` (load_tester.rs lines
225-266) on the sequence of observations its ticks would make: each tick
first breaks if the stop flag is set, otherwise publishes the Progress
message, then breaks when elapsed ≥ duration. -/
def samplerRun (duration : Nat) : List TickObs → List ProgressMsg
  | [] => []
  | o :: rest =>
    if o.shouldStopFlag then []
    else
      tickMessage duration o ::
        (if (duration : ℚ) ≤ o.elapsed then [] else samplerRun duration rest)

/-- Position of one worker inside its loop body relative to the counter
updates of an iteration (load_tester.rs lines 291-368): `idle` is outside a
request (top of the loop, pacing sleep, or exited); `inFlight` means line 301
has already incremented `requests_sent` and the outcome of the `send` has not
been recorded yet. -/
inductive WPhase where
  | idle
  | inFlight
deriving DecidableEq, Repr

/-- The three shared atomic counters (`requests_sent`, `responses_received`,
`errors`; load_tester.rs lines 57-59). -/
structure Counters where
  requests_sent : Nat
  responses_received : Nat
  errors : Nat
deriving DecidableEq, Repr

/-- An instantaneous state of one run: the counters plus each worker's phase. -/
structure RunState where
  counters : Counters
  workers : List WPhase
deriving DecidableEq, Repr

/-- `LoadTest::new` zeroes the counters; all `n` spawned workers start at the
top of their loop. -/
def initRun (n : Nat) : RunState :=
  { counters := { requests_sent := 0, responses_received := 0, errors := 0 },
    workers := List.replicate n WPhase.idle }

/-- Interleaved execution of the workers' atomic counter updates: `send` is
the `requests_sent.fetch_add(1)` of line 301, entered from the top of the
loop; `success` is the `responses_received.fetch_add(1)` of line 309 and
`failure` one of the `errors.fetch_add(1)` of lines 316 and 337, each closing
the iteration the same worker opened. A worker in `idle` may also exit its
loop, which touches no shared state. -/
inductive WStep : RunState → RunState → Prop
  | send (s : RunState) (i : Nat) (h : s.workers[i]? = some WPhase.idle) :
      WStep s
        { counters := { s.counters with requests_sent := s.counters.requests_sent + 1 },
          workers := s.workers.set i WPhase.inFlight }
  | success (s : RunState) (i : Nat) (h : s.workers[i]? = some WPhase.inFlight) :
      WStep s
        { counters :=
            { s.counters with responses_received := s.counters.responses_received + 1 },
          workers := s.workers.set i WPhase.idle }
  | failure (s : RunState) (i : Nat) (h : s.workers[i]? = some WPhase.inFlight) :
      WStep s
        { counters := { s.counters with errors := s.counters.errors + 1 },
          workers := s.workers.set i WPhase.idle }

/-- Number of workers currently between the two counter updates of an
iteration. -/
def inFlightCount (ws : List WPhase) : Nat :=
  ws.countP (fun w => w == WPhase.inFlight)

/-- The balance invariant of a run state: `requests_sent` counts the closed
iterations (one each in `responses_received` or `errors`) plus the open ones. -/
def runInv (s : RunState) : Prop :=
  s.counters.requests_sent =
    s.counters.responses_received + s.counters.errors + inFlightCount s.workers

end OhaStreaming

namespace OhaStreaming

/-- C1: the claim says a stop() before the workers finish leaves the final
status `Stopped`. In the code, `run()` assigns `Completed` unconditionally
after joining the workers, overwriting the `Stopped` written by `stop()`:
after stop-then-finish the status is `Completed`, which is not `Stopped`. -/
theorem c1_stop_then_finish_is_completed :
    (finishStatus (stopTest initControl)).status = LoadTestStatus.Completed ∧
      LoadTestStatus.Completed ≠ LoadTestStatus.Stopped := by
  decide

/-- C1 (amended): `run()` writes `Completed` to the status cell unconditionally
once all workers have joined, whatever the status was before — in particular a
prior `stop()` (which sets the flag and writes `Stopped`) is overwritten, so
the terminal `Stopped` state is left for `Completed`. -/
theorem c1_finish_overwrites_any_status (st : ControlState) :
    (finishStatus st).status = LoadTestStatus.Completed ∧
      (stopTest st).should_stop = true ∧
      (stopTest st).status = LoadTestStatus.Stopped := by
  refine ⟨rfl, rfl, rfl⟩

/-- C3: on a client-builder error in `run()`, the `unwrap` panics the task; the
status cell is left as it was (still `Running`) and in particular is never set
to `Failed` — the `Failed` variant is never constructed anywhere in the code. -/
theorem c3_setup_error_panics_not_failed :
    (runSetup initControl (Except.error "tls backend unavailable")).1 =
        SetupResult.panicked "tls backend unavailable" ∧
      (runSetup initControl (Except.error "tls backend unavailable")).2.status ≠
        LoadTestStatus.Failed := by
  decide

/-- Recording one more occurrence of a label grows the tally total by one. -/
theorem totalTally_record_error (t : List (String × Nat)) (label : String) :
    totalTally (record_error t label) = totalTally t + 1 := by
  induction t with
  | nil => rfl
  | cons p rest ih =>
    obtain ⟨k, v⟩ := p
    by_cases h : k = label
    · simp only [record_error, if_pos h, totalTally, List.map_cons, List.sum_cons]
      omega
    · simp only [record_error, if_neg h, totalTally, List.map_cons, List.sum_cons]
      simp only [totalTally] at ih
      omega

/-- Every iteration adds exactly one to `requests_sent`. -/
theorem foldl_requests (l : List ReqOutcome) :
    ∀ st : Stats, (l.foldl workerStep st).requests_sent = st.requests_sent + l.length := by
  induction l with
  | nil => intro st; simp
  | cons o rest ih =>
    intro st
    rw [List.foldl_cons, ih]
    have h1 : (workerStep st o).requests_sent = st.requests_sent + 1 := by
      cases o with
      | response code reason lat =>
        simp only [workerStep]
        split <;> rfl
      | transport e => rfl
    rw [h1]
    simp [Nat.add_assoc, Nat.add_comm 1]

/-- Each iteration that increments `errors` tallies exactly one label, so the
tally total tracks the error counter. -/
theorem foldl_tally (l : List ReqOutcome) :
    ∀ st : Stats, totalTally st.error_types = st.errors →
      totalTally (l.foldl workerStep st).error_types = (l.foldl workerStep st).errors := by
  induction l with
  | nil => intro st h; simpa using h
  | cons o rest ih =>
    intro st h
    rw [List.foldl_cons]
    apply ih
    cases o with
    | response code reason lat =>
      by_cases hs : isSuccess code = true
      · simpa [workerStep, hs] using h
      · simp [workerStep, hs, totalTally_record_error, h]
    | transport e =>
      simp [workerStep, totalTally_record_error, h]

/-- When every outcome is an HTTP 500 response, each iteration bumps the single
tally entry of the fixed 500 label. -/
theorem foldl_500 (l : List ReqOutcome) :
    ∀ (st : Stats) (k : Nat), (∀ o ∈ l, is500 o = true) →
      st.error_types = [("HTTP_500_Internal_Server_Error", k)] →
      (l.foldl workerStep st).error_types =
        [("HTTP_500_Internal_Server_Error", k + l.length)] := by
  induction l with
  | nil => intro st k _ h; simpa using h
  | cons o rest ih =>
    intro st k hall h
    have ho : is500 o = true := hall o (List.mem_cons_self o rest)
    cases o with
    | transport e => simp [is500] at ho
    | response code reason lat =>
      simp only [is500, beq_iff_eq] at ho
      subst ho
      rw [List.foldl_cons]
      have hstep : (workerStep st (ReqOutcome.response 500 reason lat)).error_types =
          [("HTTP_500_Internal_Server_Error", k + 1)] := by
        have hns : isSuccess 500 = false := by decide
        simp [workerStep, hns, h, classifyStatus, record_error]
      have hrest := ih (workerStep st (ReqOutcome.response 500 reason lat)) (k + 1)
        (fun o hmem => hall o (List.mem_cons_of_mem _ hmem)) hstep
      rw [hrest]
      have : k + 1 + rest.length = k + (rest.length + 1) := by omega
      simp [this]

/-- `workerStep` never changes the histogram's bounds or precision. -/
theorem workerStep_hist_hi (st : Stats) (o : ReqOutcome) :
    (workerStep st o).latency_histogram.hi = st.latency_histogram.hi := by
  cases o with
  | response code reason lat =>
    by_cases hs : isSuccess code = true
    · simp only [workerStep, hs, if_true, hrecord]
      split <;> rfl
    · simp [workerStep, hs]
  | transport e => rfl

/-- The histogram accumulates exactly the latencies of 2xx responses that fit
under its upper bound; other outcomes contribute nothing. -/
theorem foldl_hist_values (l : List ReqOutcome) :
    ∀ st : Stats, (l.foldl workerStep st).latency_histogram.values =
      st.latency_histogram.values ++
        (l.filterMap successLatency).filter
          (fun v => decide (v ≤ st.latency_histogram.hi)) := by
  induction l with
  | nil => intro st; simp
  | cons o rest ih =>
    intro st
    rw [List.foldl_cons, ih, workerStep_hist_hi]
    cases o with
    | response code reason lat =>
      by_cases hs : isSuccess code = true
      · by_cases hle : lat ≤ st.latency_histogram.hi
        · simp [workerStep, hs, hrecord, hle, successLatency]
        · simp [workerStep, hs, hrecord, hle, successLatency]
      · simp [workerStep, hs, successLatency]
    | transport e =>
      simp [workerStep, successLatency]

/-- C4: every failed request is tallied under exactly one label (the tally
total always equals the error counter), and when the target always answers
500 the tally is the single fixed label `HTTP_500_Internal_Server_Error`
with count equal to the total number of requests. -/
theorem c4_error_classification (l : List ReqOutcome) :
    totalTally (workerRun l).error_types = (workerRun l).errors ∧
    ((∀ o ∈ l, is500 o = true) → l ≠ [] →
      (workerRun l).error_types = [("HTTP_500_Internal_Server_Error", l.length)] ∧
      (workerRun l).requests_sent = l.length) := by
  constructor
  · exact foldl_tally l initStats rfl
  · intro hall hne
    refine ⟨?_, by simpa [workerRun, initStats] using foldl_requests l initStats⟩
    match l, hne with
    | o :: rest, _ =>
      have ho : is500 o = true := hall o (List.mem_cons_self o rest)
      cases o with
      | transport e => simp [is500] at ho
      | response code reason lat =>
        simp only [is500, beq_iff_eq] at ho
        subst ho
        have hstep : (workerStep initStats (ReqOutcome.response 500 reason lat)).error_types =
            [("HTTP_500_Internal_Server_Error", 1)] := by
          have hns : isSuccess 500 = false := by decide
          simp [workerStep, hns, initStats, classifyStatus, record_error]
        have := foldl_500 rest (workerStep initStats (ReqOutcome.response 500 reason lat)) 1
          (fun o hmem => hall o (List.mem_cons_of_mem _ hmem)) hstep
        simpa [workerRun, Nat.add_comm] using this

/-- C4 witness: the theorem applied to a concrete two-element all-500 run. -/
theorem c4_error_classification_witness :
    (workerRun [ReqOutcome.response 500 (some "Internal Server Error") 12,
                ReqOutcome.response 500 none 3]).error_types =
      [("HTTP_500_Internal_Server_Error", 2)] ∧
    (workerRun [ReqOutcome.response 500 (some "Internal Server Error") 12,
                ReqOutcome.response 500 none 3]).requests_sent = 2 :=
  (c4_error_classification
      [ReqOutcome.response 500 (some "Internal Server Error") 12,
       ReqOutcome.response 500 none 3]).2 (by decide) (by decide)

/-- C6: under the spec's own precondition that the effective rate is at least
one, the pacing interval is `1000 ms / effectiveRate`, computed once from the
config, and every spawned worker carries that same interval. -/
theorem c6_pacing_interval (c : LoadTestConfig) (h : 1 ≤ effectiveRate c) :
    requestIntervalMs c = 1000 / effectiveRate c ∧
    ∀ w ∈ mkWorkers c, w.request_interval = requestIntervalMs c := by
  constructor
  · unfold requestIntervalMs
    rw [Nat.max_eq_left h]
  · intro w hw
    simp only [mkWorkers, List.mem_map] at hw
    obtain ⟨i, _, rfl⟩ := hw
    rfl

/-- C6 witness: a concrete config with unset rate, two connections. -/
theorem c6_pacing_interval_witness :
    requestIntervalMs ⟨5, 2, none⟩ = 1000 / effectiveRate ⟨5, 2, none⟩ ∧
    ∀ w ∈ mkWorkers ⟨5, 2, none⟩, w.request_interval = requestIntervalMs ⟨5, 2, none⟩ :=
  c6_pacing_interval ⟨5, 2, none⟩ (by decide)

/-- C7: the histogram is created with value range [1 ms, 60000 ms] and 3
significant digits, and after a worker's whole loop its recorded values are
exactly the latencies of the 2xx responses (those within the trackable
range); non-2xx responses and transport failures never add an entry. -/
theorem c7_histogram_success_only (l : List ReqOutcome) :
    newHistogram.lo = 1 ∧ newHistogram.hi = 60000 ∧ newHistogram.sigfig = 3 ∧
    (workerRun l).latency_histogram.values =
      (l.filterMap successLatency).filter (fun v => decide (v ≤ 60000)) := by
  refine ⟨rfl, rfl, rfl, ?_⟩
  simpa [initStats, newHistogram] using foldl_hist_values l initStats

/-- C9: the periodic sweep keeps exactly the entries whose status is `Running`
or `Stopped`; entries whose status is `Completed` or `Failed` are removed. -/
theorem c9_cleanup_keeps_running_and_stopped
    (tests : List (String × LoadTestStatus)) (e : String × LoadTestStatus) :
    e ∈ cleanup_completed_tests tests ↔
      e ∈ tests ∧ (e.2 = LoadTestStatus.Running ∨ e.2 = LoadTestStatus.Stopped) := by
  unfold cleanup_completed_tests
  rw [List.mem_filter]
  refine and_congr_right fun _ => ?_
  cases e.2 <;> simp [retainTest]

/-- Cancelling a common string suffix. -/
theorem str_append_cancel (t1 t2 s : String) (h : t1 ++ s = t2 ++ s) : t1 = t2 := by
  apply String.ext
  have hd := congrArg String.data h
  rw [String.data_append, String.data_append] at hd
  exact List.append_cancel_right hd

/-- A string ending in "node" never equals one ending in "bun". -/
theorem str_node_ne_bun (u1 u2 : String) (h : u1 ++ "node" = u2 ++ "bun") : False := by
  have hd := congrArg String.data h
  rw [String.data_append, String.data_append] at hd
  have h2 := congrArg List.getLast? hd
  rw [List.getLast?_append, List.getLast?_append] at h2
  have e1 : ("node".data).getLast? = some 'e' := rfl
  have e2 : ("bun".data).getLast? = some 'n' := rfl
  rw [e1, e2] at h2
  simp [Option.or] at h2

/-- C5: the claim says the registry is keyed by a structured pair. In the code
the key is the concatenated string `testId-runtime`, which conflates distinct
structured pairs: ("a-node", "x") and ("a", "node-x") are different pairs,
yet they produce the same registry key. -/
theorem c5_key_conflates_pairs :
    registryKey "a-node" "x" = registryKey "a" "node-x" ∧
      (("a-node", "x") : String × String) ≠ ("a", "node-x") := by
  constructor
  · rfl
  · decide

/-- String append is associative (via the underlying character lists). -/
theorem str_append_assoc (a b c : String) : a ++ b ++ c = a ++ (b ++ c) := by
  apply String.ext
  simp [String.data_append, List.append_assoc]

/-- C5 (amended): `start_test` registers and `stop_test` looks up the runs
under the concatenated string keys `testId-node` and `testId-bun`, not under
a structured pair; restricted to the two runtime labels the code actually
uses, this keying is injective, so the lookups are unambiguous. -/
theorem c5_concatenated_keys (t1 t2 r1 r2 : String)
    (h1 : r1 = "node" ∨ r1 = "bun") (h2 : r2 = "node" ∨ r2 = "bun") :
    startTestKeys t1 = [t1 ++ "-node", t1 ++ "-bun"] ∧
    stopTestKeys t1 = [t1 ++ "-node", t1 ++ "-bun"] ∧
    (registryKey t1 r1 = registryKey t2 r2 ↔ t1 = t2 ∧ r1 = r2) := by
  have hnode : ∀ t : String, registryKey t "node" = t ++ "-node" := by
    intro t
    unfold registryKey
    rw [str_append_assoc]
    rfl
  have hbun : ∀ t : String, registryKey t "bun" = t ++ "-bun" := by
    intro t
    unfold registryKey
    rw [str_append_assoc]
    rfl
  refine ⟨by rw [startTestKeys, hnode, hbun], by rw [stopTestKeys, hnode, hbun], ?_, ?_⟩
  · intro hk
    unfold registryKey at hk
    rcases h1 with rfl | rfl <;> rcases h2 with rfl | rfl
    · exact ⟨str_append_cancel _ _ "-" (str_append_cancel _ _ "node" hk), rfl⟩
    · exact absurd hk (fun hk => str_node_ne_bun (t1 ++ "-") (t2 ++ "-") hk)
    · exact absurd hk.symm (fun hk => str_node_ne_bun (t2 ++ "-") (t1 ++ "-") hk)
    · exact ⟨str_append_cancel _ _ "-" (str_append_cancel _ _ "bun" hk), rfl⟩
  · rintro ⟨rfl, rfl⟩
    rfl

/-- C5 witness: the amended statement at the concrete id "a" and label "node". -/
theorem c5_concatenated_keys_witness :
    startTestKeys "a" = ["a" ++ "-node", "a" ++ "-bun"] ∧
    stopTestKeys "a" = ["a" ++ "-node", "a" ++ "-bun"] ∧
    (registryKey "a" "node" = registryKey "a" "node" ↔
      "a" = "a" ∧ "node" = "node") :=
  c5_concatenated_keys "a" "a" "node" "node" (Or.inl rfl) (Or.inl rfl)

/-- C8: every message the sampler publishes carries
`progressPercent = min(elapsed/duration*100, 100)` and
`currentRps = requests / max(elapsed, 0.1)` computed from the observation of
its tick, and a tick whose elapsed time has reached the configured duration
is the loop's last: it publishes its message and the loop terminates. -/
theorem c8_sampler_formulas_and_termination (duration : Nat) (obs : List TickObs) :
    (∀ m ∈ samplerRun duration obs, ∃ o ∈ obs,
        m = tickMessage duration o ∧
        m.progress_percent = min (o.elapsed / (duration : ℚ) * 100) 100 ∧
        m.current_rps = (o.requests : ℚ) / max o.elapsed (1 / 10)) ∧
    (∀ (o : TickObs) (rest : List TickObs), o.shouldStopFlag = false →
        (duration : ℚ) ≤ o.elapsed →
        samplerRun duration (o :: rest) = [tickMessage duration o]) := by
  constructor
  · induction obs with
    | nil => intro m hm; simp [samplerRun] at hm
    | cons o rest ih =>
      intro m hm
      cases hstop : o.shouldStopFlag with
      | true => simp [samplerRun, hstop] at hm
      | false =>
        simp only [samplerRun, hstop, Bool.false_eq_true, if_false] at hm
        rcases List.mem_cons.mp hm with rfl | htail
        · exact ⟨o, List.mem_cons_self o rest, rfl, rfl, rfl⟩
        · by_cases hdur : (duration : ℚ) ≤ o.elapsed
          · rw [if_pos hdur] at htail
            simp at htail
          · rw [if_neg hdur] at htail
            obtain ⟨o', ho', hprop⟩ := ih m htail
            exact ⟨o', List.mem_cons_of_mem o ho', hprop⟩
  · intro o rest h1 h2
    simp [samplerRun, h1, h2]

/-- Writing one position of a phase list shifts `countP` by the difference of
the old and new entries. -/
theorem countP_set_balance (l : List WPhase) (i : Nat) (a b : WPhase)
    (h : l[i]? = some a) (p : WPhase → Bool) :
    (l.set i b).countP p + (if p a then 1 else 0) =
      l.countP p + (if p b then 1 else 0) := by
  induction l generalizing i with
  | nil => simp at h
  | cons x xs ih =>
    cases i with
    | zero =>
      simp only [List.getElem?_cons_zero, Option.some.injEq] at h
      subst h
      simp only [List.set, List.countP_cons]
      omega
    | succ j =>
      simp only [List.getElem?_cons_succ] at h
      simp only [List.set, List.countP_cons]
      have := ih j h
      omega

/-- Opening an iteration raises the in-flight count by one. -/
theorem inFlight_set_open (l : List WPhase) (i : Nat)
    (h : l[i]? = some WPhase.idle) :
    inFlightCount (l.set i WPhase.inFlight) = inFlightCount l + 1 := by
  have hc := countP_set_balance l i WPhase.idle WPhase.inFlight h
    (fun w => w == WPhase.inFlight)
  simpa [inFlightCount] using hc

/-- Closing an iteration lowers the in-flight count by one. -/
theorem inFlight_set_close (l : List WPhase) (i : Nat)
    (h : l[i]? = some WPhase.inFlight) :
    inFlightCount (l.set i WPhase.idle) + 1 = inFlightCount l := by
  have hc := countP_set_balance l i WPhase.inFlight WPhase.idle h
    (fun w => w == WPhase.inFlight)
  simpa [inFlightCount] using hc

/-- No worker of a fresh run is inside an iteration. -/
theorem inFlightCount_init (n : Nat) :
    inFlightCount (List.replicate n WPhase.idle) = 0 := by
  induction n with
  | zero => rfl
  | succ k ih =>
    simp only [List.replicate, inFlightCount, List.countP_cons] at *
    simp [ih]

/-- Every interleaved step preserves the balance invariant. -/
theorem wstep_preserves_inv (s t : RunState) (hst : WStep s t) (h : runInv s) :
    runInv t := by
  cases hst with
  | send i hi =>
    have hc := inFlight_set_open s.workers i hi
    unfold runInv at *
    simp only [] at *
    omega
  | success i hi =>
    have hc := inFlight_set_close s.workers i hi
    unfold runInv at *
    simp only [] at *
    omega
  | failure i hi =>
    have hc := inFlight_set_close s.workers i hi
    unfold runInv at *
    simp only [] at *
    omega

/-- The balance invariant holds in every reachable state of a run. -/
theorem reachable_inv (n : Nat) (s : RunState)
    (h : Relation.ReflTransGen WStep (initRun n) s) : runInv s := by
  induction h with
  | refl => simp [runInv, initRun, inFlightCount_init]
  | tail _ hbc ih => exact wstep_preserves_inv _ _ hbc ih

/-- C10: in every reachable state of a run — at any observation point, not
only after the workers join — the recorded outcomes never exceed the sent
count: each iteration increments `requests_sent` before recording its outcome
in `responses_received` or `errors`. -/
theorem c10_sent_bounds_outcomes (n : Nat) (s : RunState)
    (h : Relation.ReflTransGen WStep (initRun n) s) :
    s.counters.responses_received + s.counters.errors ≤ s.counters.requests_sent := by
  have hinv := reachable_inv n s h
  unfold runInv at hinv
  omega

/-- C10 witness: the bound at the state reached by one worker of two opening
an iteration. -/
theorem c10_sent_bounds_outcomes_witness :
    (⟨⟨1, 0, 0⟩, [WPhase.inFlight, WPhase.idle]⟩ : RunState).counters.responses_received +
        (⟨⟨1, 0, 0⟩, [WPhase.inFlight, WPhase.idle]⟩ : RunState).counters.errors ≤
      (⟨⟨1, 0, 0⟩, [WPhase.inFlight, WPhase.idle]⟩ : RunState).counters.requests_sent :=
  c10_sent_bounds_outcomes 2 ⟨⟨1, 0, 0⟩, [WPhase.inFlight, WPhase.idle]⟩
    (Relation.ReflTransGen.single (WStep.send (initRun 2) 0 (by decide)))

/-- C2: once all workers have joined (no iteration is open), the counters
balance exactly: `requests_sent = responses_received + errors`, because every
iteration incremented `requests_sent` by one and then exactly one of
`responses_received` or `errors` by one. -/
theorem c2_counters_balance_after_join (n : Nat) (s : RunState)
    (h : Relation.ReflTransGen WStep (initRun n) s)
    (hjoined : inFlightCount s.workers = 0) :
    s.counters.requests_sent = s.counters.responses_received + s.counters.errors := by
  have hinv := reachable_inv n s h
  unfold runInv at hinv
  omega

/-- C2 witness: a one-worker run that sent one request and recorded one
success, then joined. -/
theorem c2_counters_balance_after_join_witness :
    (⟨⟨1, 1, 0⟩, [WPhase.idle]⟩ : RunState).counters.requests_sent =
      (⟨⟨1, 1, 0⟩, [WPhase.idle]⟩ : RunState).counters.responses_received +
        (⟨⟨1, 1, 0⟩, [WPhase.idle]⟩ : RunState).counters.errors :=
  c2_counters_balance_after_join 1 ⟨⟨1, 1, 0⟩, [WPhase.idle]⟩
    (Relation.ReflTransGen.head (WStep.send (initRun 1) 0 (by decide))
      (Relation.ReflTransGen.single
        (WStep.success ⟨⟨1, 0, 0⟩, [WPhase.inFlight]⟩ 0 (by decide))))
    (by decide)

end OhaStreaming
